import Mathlib

/-!
# Verification of the `llm_lab` repository

A shallow embedding, in Lean 4, of the behaviour-relevant parts of the four
source files of the repository:

* `gpt_generate.py`  — watermarked-generation helper (`hash_input_id`,
  `gen_red_list`);
* `utils.py`         — student-ID validation (`is_valid_student_id`);
* `check_submission.py` — the submission-archive validator (`is_valid_token_urlsafe`,
  `check_q1`, `check_q2`, `check_q3`, `check_submission`);
* `safety_checker.py` — the image safety checker (`cosine_similarity`,
  `MySafetyChecker.forward`).

Machine floats are embedded as exact rationals, Python `int` as `ℤ`, numpy
arrays as a dtype tag plus shape and flattened integer data.  External library
functions (the numpy global PRNG, CPython's `base64`/`binascii` decoder,
Python `re` matching for the one fixed pattern used) are modelled explicitly;
the base64 model reproduces CPython 3.11's lenient `binascii.a2b_base64`
algorithm, and the regex model reproduces Python's `$` anchor semantics
(which also matches just before one terminating newline).
-/

namespace LlmLab

/-! ### Python numeric primitives -/

/-- Python `int()` applied to an exact rational value: truncation toward zero
(`int(frac_red * vocab_size)` in `gen_red_list`). -/
def pyInt (q : ℚ) : ℤ := if 0 ≤ q then ⌊q⌋ else -⌊-q⌋

/-- Rounding a rational to the nearest integer, ties to even.  This models
Python's `round` on values that are not exact decimal ties (binary doubles
never produce an exact tie at the third decimal place, so the tie branch is
unobservable for the program's float inputs). -/
def roundHalfEven (q : ℚ) : ℤ :=
  if Int.fract q < 1/2 then ⌊q⌋
  else if 1/2 < Int.fract q then ⌊q⌋ + 1
  else if 2 ∣ ⌊q⌋ then ⌊q⌋ else ⌊q⌋ + 1

/-- Python `round(x, 3)` over exact rationals: round `x * 1000` to the nearest
integer and divide back. -/
def pyRound3 (q : ℚ) : ℚ := (roundHalfEven (q * 1000) : ℚ) / 1000

/-! ### Model of the external numpy global PRNG

`gpt_generate.py` calls `np.random.seed(seed)` followed by
`np.random.choice(vocab_size, size=k, replace=False)`.  numpy is an external
dependency; we model its global generator as an explicit state threaded
through the embedded functions.  The model keeps the contract of the real
library: seeding fully overwrites the global state as a function of the seed
alone; `choice(n, k, replace=False)` deterministically draws `k` distinct
integers from `[0, n)` (erroring when `n = 0`, `k < 0` or `k > n`) and leaves
the global state advanced to a value that depends only on the seeded state and
the draw parameters. -/

/-- The numpy global random state (model). -/
structure NpRandomState where
  state : ℕ
deriving DecidableEq

/-- One step of the model PRNG: a classic linear congruential generator. -/
def lcgNext (s : ℕ) : ℕ := (s * 1103515245 + 12345) % 2147483648

/-- `np.random.seed seed` (model): the global state is completely overwritten
with a value computed from the seed alone. -/
def npSeedFn (seed : ℕ) : NpRandomState := ⟨lcgNext seed⟩

/-- Draw `k` values without replacement from `pool`, consuming PRNG state.
Models the sampling loop inside `np.random.choice(..., replace=False)`. -/
def drawDistinct : ℕ → List ℕ → ℕ → List ℕ × ℕ
  | 0, _, s => ([], s)
  | k + 1, pool, s =>
    if pool.length = 0 then ([], s)
    else
      let s' := lcgNext s
      let x := pool.getD (s' % pool.length) 0
      let p := drawDistinct k (pool.erase x) s'
      (x :: p.1, p.2)

/-- `np.random.choice(n, size=k, replace=False)` (model).  Returns `none` on
the parameter combinations where numpy raises `ValueError`. -/
def np_random_choice (n : ℕ) (size : ℤ) (g : NpRandomState) :
    Option (List ℕ) × NpRandomState :=
  if n = 0 then (none, g)
  else if size < 0 then (none, g)
  else if n < size.toNat then (none, g)
  else
    let p := drawDistinct size.toNat (List.range n) g.state
    (some p.1, ⟨p.2⟩)

/-! ### `gpt_generate.py` -/

/-- `hash_input_id` from `gpt_generate.py`.  The 1-D `input_id` tensor is
embedded as a list of integers; `input_id[-1]` on an empty tensor raises, so
the empty list maps to `none`.  Python `%` on a positive modulus returns a
non-negative value, matching `Int.emod`. -/
def hash_input_id (input_id : List ℤ) : Option ℕ :=
  match input_id.getLast? with
  | none => none
  | some t => some ((t * 314159) % (0xDEADBEEF : ℤ)).toNat

/-- `gen_red_list` from `gpt_generate.py`: seed the global numpy PRNG with
`hash_input_id input_id`, then draw `int(frac_red * vocab_size)` distinct
token IDs from `[0, vocab_size)` without replacement.  The ambient global
PRNG state `g` is passed explicitly; the call overwrites it via the seeding
step. -/
def gen_red_list (input_id : List ℤ) (vocab_size : ℕ) (frac_red : ℚ)
    (g : NpRandomState) : Option (List ℕ) × NpRandomState :=
  match hash_input_id input_id with
  | none => (none, g)
  | some seed =>
      np_random_choice vocab_size (pyInt (frac_red * vocab_size)) (npSeedFn seed)

/-! #### PRNG-model lemmas -/

theorem drawDistinct_length (k : ℕ) :
    ∀ (pool : List ℕ) (s : ℕ), k ≤ pool.length →
      (drawDistinct k pool s).1.length = k := by
  induction k with
  | zero => intro pool s _; simp [drawDistinct]
  | succ k ih =>
    intro pool s hk
    have hpos : 0 < pool.length := Nat.lt_of_lt_of_le (Nat.succ_pos k) hk
    have hne : ¬ pool.length = 0 := Nat.pos_iff_ne_zero.mp hpos
    simp only [drawDistinct, hne, if_false]
    have hmem : pool.getD (lcgNext s % pool.length) 0 ∈ pool := by
      have hlt : lcgNext s % pool.length < pool.length := Nat.mod_lt _ hpos
      rw [List.getD_eq_getElem?_getD, List.getElem?_eq_getElem hlt]
      exact List.getElem_mem _
    have herase : (pool.erase (pool.getD (lcgNext s % pool.length) 0)).length
        = pool.length - 1 := List.length_erase_of_mem hmem
    have hk' : k ≤ (pool.erase (pool.getD (lcgNext s % pool.length) 0)).length := by
      omega
    have hrec := ih (pool.erase (pool.getD (lcgNext s % pool.length) 0)) (lcgNext s) hk'
    simp only [drawDistinct, hne, if_false, List.length_cons, hrec]

theorem drawDistinct_subset (k : ℕ) :
    ∀ (pool : List ℕ) (s : ℕ) (x : ℕ),
      x ∈ (drawDistinct k pool s).1 → x ∈ pool := by
  induction k with
  | zero => intro pool s x hx; simp [drawDistinct] at hx
  | succ k ih =>
    intro pool s x hx
    by_cases hne : pool.length = 0
    · simp [drawDistinct, hne] at hx
    · simp only [drawDistinct, hne, if_false, List.mem_cons] at hx
      have hpos : 0 < pool.length := Nat.pos_iff_ne_zero.mpr hne
      have hmem : pool.getD (lcgNext s % pool.length) 0 ∈ pool := by
        have hlt : lcgNext s % pool.length < pool.length := Nat.mod_lt _ hpos
        rw [List.getD_eq_getElem?_getD, List.getElem?_eq_getElem hlt]
        exact List.getElem_mem _
      rcases hx with hx | hx
      · rw [hx]; exact hmem
      · exact List.erase_subset _ _ (ih _ _ _ hx)

theorem drawDistinct_nodup (k : ℕ) :
    ∀ (pool : List ℕ) (s : ℕ), pool.Nodup →
      (drawDistinct k pool s).1.Nodup := by
  induction k with
  | zero => intro pool s _; simp [drawDistinct]
  | succ k ih =>
    intro pool s hnd
    by_cases hne : pool.length = 0
    · simp [drawDistinct, hne]
    · simp only [drawDistinct, hne, if_false]
      refine List.nodup_cons.mpr ⟨?_, ih _ _ (hnd.erase _)⟩
      intro hmem
      exact hnd.not_mem_erase (drawDistinct_subset _ _ _ _ hmem)

/-! ### `utils.py` : `is_valid_student_id`

`is_valid_student_id` evaluates `re.match(r"^\d{2}-\d{3}-\d{3}$", input_string)`.
We embed the matcher for this one fixed pattern.  Two Python-`re` facts matter:
`re.match` anchors at the start, and the `$` anchor matches at the end of the
string **or just before a terminating newline**.  `\d` is modelled as an ASCII
decimal digit (`Char.isDigit`); Python's `\d` (on a `str` pattern without
`re.ASCII`) additionally matches non-ASCII Unicode decimal digits (category
Nd), on which this model diverges from the program — the matcher below agrees
with `re.match` exactly on ASCII strings, and the theorem about
`is_valid_student_id` is therefore stated with an all-ASCII hypothesis. -/

/-- Consume exactly `n` digit characters (`\d{n}`, ASCII fragment), returning
the remainder. -/
def matchNDigits : ℕ → List Char → Option (List Char)
  | 0, cs => some cs
  | _ + 1, [] => none
  | n + 1, c :: cs => if c.isDigit then matchNDigits n cs else none

/-- Consume one literal character, returning the remainder. -/
def matchLit (lit : Char) : List Char → Option (List Char)
  | [] => none
  | c :: cs => if c = lit then some cs else none

/-- Python's `$` anchor: succeeds at the end of the string, or just before a
single terminating newline. -/
def pyEndAnchor (cs : List Char) : Bool := cs.isEmpty || cs == ['\n']

/-- The body of the pattern `\d{2}-\d{3}-\d{3}`, returning the unmatched
remainder of the string on success. -/
def reMatchStudentId (cs : List Char) : Option (List Char) :=
  (matchNDigits 2 cs).bind fun r1 =>
  (matchLit '-' r1).bind fun r2 =>
  (matchNDigits 3 r2).bind fun r3 =>
  (matchLit '-' r3).bind fun r4 =>
  matchNDigits 3 r4

/-- `is_valid_student_id` from `utils.py`:
`bool(re.match(r"^\d{2}-\d{3}-\d{3}$", input_string))`.  Faithful to the
program on ASCII strings; on non-ASCII strings the real `\d` also accepts
Unicode decimal digits, which this ASCII model rejects. -/
def is_valid_student_id (s : String) : Bool :=
  match reMatchStudentId s.data with
  | none => false
  | some rest => pyEndAnchor rest

/-! ### `check_submission.py` : base64 token validation

`is_valid_token_urlsafe` calls `base64.b64decode` (with `validate=False`,
the default).  CPython's `b64decode` first requires the string to be pure
ASCII, then runs `binascii.a2b_base64` in lenient mode, which *discards*
characters outside the base64 alphabet, treats `=` reached with at least two
live quad characters as terminating padding (ignoring everything after it,
and accepting excess padding), ignores `=` seen earlier in a quad, and errors
when the input ends mid-quad.  `a2b_base64` below reproduces that algorithm;
it was cross-checked against CPython 3.11 on the boundary cases. -/

/-- The value of a standard-base64 alphabet character, `none` for characters
outside the alphabet. -/
def b64CharVal (c : Char) : Option ℕ :=
  if 65 ≤ c.toNat ∧ c.toNat ≤ 90 then some (c.toNat - 65)
  else if 97 ≤ c.toNat ∧ c.toNat ≤ 122 then some (c.toNat - 97 + 26)
  else if 48 ≤ c.toNat ∧ c.toNat ≤ 57 then some (c.toNat - 48 + 52)
  else if c = '+' then some 62
  else if c = '/' then some 63
  else none

/-- CPython's lenient `binascii.a2b_base64` loop.  State: `quad` is the
position inside the current 4-character group, `left` the pending bits,
`pads` the count of padding characters seen at quad position ≥ 2, `acc` the
output bytes in reverse order. -/
def a2b_base64 : List Char → ℕ → ℕ → ℕ → List ℕ → Option (List ℕ)
  | [], quad, _left, _pads, acc =>
      if quad = 0 then some acc.reverse else none
  | c :: rest, quad, left, pads, acc =>
      if c = '=' then
        if 2 ≤ quad then
          if 4 ≤ quad + (pads + 1) then some acc.reverse
          else a2b_base64 rest quad left (pads + 1) acc
        else a2b_base64 rest quad left pads acc
      else
        match b64CharVal c with
        | none => a2b_base64 rest quad left pads acc
        | some v =>
          match quad with
          | 0 => a2b_base64 rest 1 v 0 acc
          | 1 => a2b_base64 rest 2 (v % 16) 0 (((left * 4) + v / 16) :: acc)
          | 2 => a2b_base64 rest 3 (v % 4) 0 (((left * 16) + v / 4) :: acc)
          | _ => a2b_base64 rest 0 0 0 (((left * 64) + v) :: acc)

/-- `base64.b64decode` on a Python `str` (default `validate=False`): encode to
ASCII (error on non-ASCII), then lenient `a2b_base64`. -/
def b64decode (cs : List Char) : Option (List ℕ) :=
  if cs.all (fun c => c.toNat ≤ 127) then a2b_base64 cs 0 0 0 []
  else none

/-- The padding step of `is_valid_token_urlsafe`:
`token + "=" * (4 - len(token) % 4) if len(token) % 4 else token`. -/
def padToken (t : List Char) : List Char :=
  if t.length % 4 ≠ 0 then t ++ List.replicate (4 - t.length % 4) '=' else t

/-- The character translation `.replace("-", "+").replace("_", "/")`.  The two
sequential replacements commute into one character map because the outputs
`'+'`/`'/'` are not themselves replaced. -/
def urlTr (c : Char) : Char :=
  if c = '-' then '+' else if c = '_' then '/' else c

/-- `is_valid_token_urlsafe` from `check_submission.py`: pad, translate
URL-safe characters, decode, compare the decoded byte count with `key_len`;
any exception inside the `try` block yields `False`. -/
def is_valid_token_urlsafe (token : String) (key_len : ℕ) : Bool :=
  match b64decode ((padToken token.data).map urlTr) with
  | some decoded => decoded.length == key_len
  | none => false

/-! ### `check_submission.py` : data model

A `.npy` file is embedded as its dtype kind, its shape, and (for integer
arrays) its flattened data.  The dtype kinds distinguish exactly what the
checker inspects via `np.issubdtype(dtype, np.integer)` and
`np.issubdtype(dtype, np.str_)`. -/

/-- The numpy dtype kinds the checker can distinguish. -/
inductive NpDtype
  | intDtype
  | strDtype
  | floatDtype
deriving DecidableEq

/-- numpy's printed name for a representative dtype of each kind (as it
appears interpolated into the error messages). -/
def dtypeName : NpDtype → String
  | .intDtype => "int64"
  | .strDtype => "<U32"
  | .floatDtype => "float64"

/-- A loaded numpy array: dtype kind, shape, and flattened integer data
(meaningful for integer dtypes; the checks never read element values of
non-integer arrays). -/
structure NpArray where
  dtype : NpDtype
  shape : List ℕ
  intData : List ℤ
deriving DecidableEq

/-- Python's `repr` of a shape tuple: `(60,)`, `(2, 100)`, `()`. -/
def shapeStr (s : List ℕ) : String :=
  match s with
  | [n] => "(" ++ toString n ++ ",)"
  | _ => "(" ++ String.intercalate ", " (s.map toString) ++ ")"

/-- Python `str.strip()` restricted to ASCII whitespace (the trimming done on
the API-key file's contents): drop whitespace from both ends. -/
def pyStrip (s : String) : String :=
  String.mk (((s.data.dropWhile Char.isWhitespace).reverse.dropWhile
    Char.isWhitespace).reverse)

/-- The contents of the resolved submission root: each per-question artifact,
present or absent.  `q3_guesses` holds the result of `f.readlines()`. -/
structure Submission where
  q1_gens : Option NpArray
  q1_guesses : Option NpArray
  q2_key : Option String
  q2_code_py : Bool
  q2_code_ipynb : Bool
  q2_pvalue : Option NpArray
  q2_bool : Option NpArray
  q3_guesses : Option (List String)
  declaration : Bool
deriving DecidableEq

/-- How an embedded check can abort: an `InvalidSubmissionError` carrying its
message, or an uncaught Python `IndexError` (reachable in `check_q2` via
`array.shape[0]` on a zero-dimensional array). -/
inductive PyExc
  | invalidSubmission (msg : String)
  | indexError
deriving DecidableEq

/-- Checks return the accumulated `MissingSubmissionFileWarning` messages, or
abort with an exception. -/
abbrev CheckResult := Except PyExc (List String)

/-! ### `check_submission.py` : per-question checks -/

/-- The `Q1_gens.npy` block of `check_q1`.  Note the error message of the
dtype check interpolates `Q1_GUESSES_FILENAME`, not `Q1_GENS_FILENAME`, as in
the source. -/
def check_q1_gens (sub : Submission) : CheckResult :=
  match sub.q1_gens with
  | none =>
      .ok ["Q1_gens.npy not found in the submission. This part of Q1 will not be graded."]
  | some gens =>
      if gens.dtype ≠ .strDtype then
        .error (.invalidSubmission
          ("Q1_guesses.npy should contain strings only, got " ++ dtypeName gens.dtype ++ "."))
      else if gens.shape ≠ [60] then
        .error (.invalidSubmission
          ("Q1_gens.npy should contain exactly (60,) elements, got " ++ shapeStr gens.shape ++ "."))
      else .ok []

/-- The `Q1_guesses.npy` block of `check_q1`: existence, integer dtype,
value range `[1, 4]`, then shape `(80,)`, in that order. -/
def check_q1_guesses (sub : Submission) : CheckResult :=
  match sub.q1_guesses with
  | none =>
      .ok ["Q1_guesses.npy not found in the submission. This part of Q1 will not be graded."]
  | some guesses =>
      if guesses.dtype ≠ .intDtype then
        .error (.invalidSubmission
          ("Q1_guesses.npy should contain integers only, got " ++ dtypeName guesses.dtype ++ "."))
      else if ¬ (guesses.intData.all (fun v => 1 ≤ v) ∧ guesses.intData.all (fun v => v ≤ 4)) then
        .error (.invalidSubmission
          "Q1_guesses.npy should contain integers between 1 and 4 (both inclusive) only.")
      else if guesses.shape ≠ [80] then
        .error (.invalidSubmission
          ("Q1_guesses.npy should have shape (80,), got " ++ shapeStr guesses.shape ++ "."))
      else .ok []

/-- `check_q1` from `check_submission.py`: the generations block, then the
guesses block; the first raised `InvalidSubmissionError` aborts. -/
def check_q1 (sub : Submission) : CheckResult :=
  match check_q1_gens sub with
  | .error e => .error e
  | .ok w1 =>
      match check_q1_guesses sub with
      | .error e => .error e
      | .ok w2 => .ok (w1 ++ w2)

/-- One iteration of the `for file in [Q2_PVALUE_FILENAME, Q2_BOOL_FILENAME]`
loop of `check_q2`: integer dtype, then `array.shape[0] > 140`.  Reading
`shape[0]` of a zero-dimensional array raises `IndexError`. -/
def check_q2_array (file : String) (arr : Option NpArray) : CheckResult :=
  match arr with
  | none => .ok [file ++ " not found. This part of Q2 will not be graded."]
  | some a =>
      if a.dtype ≠ .intDtype then
        .error (.invalidSubmission
          (file ++ " should contain integers only, got " ++ dtypeName a.dtype ++ "."))
      else
        match a.shape with
        | [] => .error .indexError
        | n :: _ =>
            if n > 140 then
              .error (.invalidSubmission
                (file ++ " should have at most (140,) elements, got " ++ shapeStr a.shape ++ "."))
            else .ok []

/-- `check_q2` from `check_submission.py`: API-key token check (early return
with a warning when the key file is missing), the `Q2_code.py` /
`Q2_code.ipynb` exclusivity check (early return with a warning when neither
exists, error when both exist), then the two array checks. -/
def check_q2 (sub : Submission) : CheckResult :=
  match sub.q2_key with
  | none =>
      .ok ["Q2_key.txt not found in the submission. In the current state, Q2 will not be graded."]
  | some key =>
      if ¬ is_valid_token_urlsafe (pyStrip key) 50 then
        .error (.invalidSubmission
          "Q2_key.txt should contain a base64-encoded string of 50 bytes.")
      else if sub.q2_code_py ∧ sub.q2_code_ipynb then
        .error (.invalidSubmission "Multiple Q2_code files found, only one is allowed.")
      else if ¬ sub.q2_code_py ∧ ¬ sub.q2_code_ipynb then
        .ok ["No Q2_code file found. Please submit a file with one of these extensions: .py, .ipynb. In the current state, Q2 will not be graded."]
      else
        match check_q2_array "Q2_pvalue.npy" sub.q2_pvalue with
        | .error e => .error e
        | .ok w1 =>
            match check_q2_array "Q2_bool.npy" sub.q2_bool with
            | .error e => .error e
            | .ok w2 => .ok (w1 ++ w2)

/-- `check_q3` from `check_submission.py`: `Q3_guesses.txt` must have exactly
21 lines. -/
def check_q3 (sub : Submission) : CheckResult :=
  match sub.q3_guesses with
  | none => .ok ["Q3_guesses.txt not found in the submission. Q3 will not be graded."]
  | some lines =>
      if lines.length ≠ 21 then
        .error (.invalidSubmission
          ("Q3_guesses.txt should contain exactly 21 elements, got " ++ toString lines.length ++ "."))
      else .ok []

/-- The opened zip archive: the top-level contents, and, when a top-level
directory named after the archive's stem exists, that directory's contents. -/
structure Archive where
  topLevel : Submission
  nested : Option Submission
deriving DecidableEq

/-- The root-resolution step of `check_submission`
(`has_specific_subdirectory` + descent). -/
def resolveRoot (a : Archive) : Submission := a.nested.getD a.topLevel

/-- `check_submission` from `check_submission.py`: archive existence, root
resolution, the unconditional `declaration_originality.pdf` presence check,
then `check_q1`, `check_q2`, `check_q3` in order. -/
def check_submission (zipExists : Bool) (zipFilePath : String) (a : Archive) :
    CheckResult :=
  if ¬ zipExists then
    .error (.invalidSubmission ("Submission file " ++ zipFilePath ++ " not found."))
  else
    let root := resolveRoot a
    if ¬ root.declaration then
      .error (.invalidSubmission "declaration_originality.pdf not found in the submission.")
    else
      match check_q1 root with
      | .error e => .error e
      | .ok w1 =>
          match check_q2 root with
          | .error e => .error e
          | .ok w2 =>
              match check_q3 root with
              | .error e => .error e
              | .ok w3 => .ok (w1 ++ w2 ++ w3)

/-! ### `safety_checker.py`

The CLIP embedding and L2-normalization of `MySafetyChecker.forward` are
external model calls; the embedding below takes the (already normalized)
image embeddings as input, exactly the value fed to `cosine_similarity` in
the source.  Images are embedded as flattened pixel lists; `np.zeros(shape)`
of an image therefore becomes a list of zeros of the same length. -/

/-- Dot product of two equal-length vectors. -/
def dot (v w : List ℚ) : ℚ := (List.zipWith (· * ·) v w).sum

/-- `cosine_similarity` from `safety_checker.py`:
`image_embeds @ text_embeds.T`, entry `(i, j)` being the dot product of image
`i` with concept `j`. -/
def cosine_similarity (image_embeds text_embeds : List (List ℚ)) : List (List ℚ) :=
  image_embeds.map fun img => text_embeds.map fun t => dot img t

/-- `MySafetyChecker.forward` from `safety_checker.py` (pure result view):
computes the image × concept similarity matrix, flags image `i` when some
per-concept score — **rounded to 3 decimal places** — exceeds `0.28`, and
replaces each flagged image with an all-zero image of its shape.  The inner
loop runs over `range(len(sim[0]))`, hence `nC` below; the mutation loop runs
over `enumerate(has_nsfw_concepts)` (batches are index-aligned in every
caller). -/
def forward (concept_embeds image_embeds images : List (List ℚ)) :
    List (List ℚ) × List Bool :=
  let sim := cosine_similarity image_embeds concept_embeds
  let nC := (sim.headD []).length
  let has_nsfw_concepts := sim.map fun row =>
    (List.range nC).any fun j => decide ((28 / 100 : ℚ) < pyRound3 (row.getD j 0))
  let images' := images.mapIdx fun idx img =>
    if has_nsfw_concepts.getD idx false then List.replicate img.length (0 : ℚ) else img
  (images', has_nsfw_concepts)

/-- A heap of image batches.  `MySafetyChecker.forward` mutates the batch
object the caller passed in (the statement `images[idx] = np.zeros(...)`) and
returns that same object; to make the aliasing observable, the stateful view
below threads an explicit store and a reference (index) to the caller's
batch. -/
abbrev ImageStore := List (List (List ℚ))

/-- `MySafetyChecker.forward` (stateful view): reads the batch through the
caller's reference, writes the redacted batch back through the **same**
reference, and returns that reference together with the per-image flags. -/
def forward_inplace (concept_embeds image_embeds : List (List ℚ))
    (store : ImageStore) (ref : ℕ) : ImageStore × ℕ × List Bool :=
  let images := store.getD ref []
  let r := forward concept_embeds image_embeds images
  (store.set ref r.1, ref, r.2)

/-! ## Helper lemmas for `gen_red_list` -/

theorem hash_input_id_getLast {ids : List ℤ} {t : ℤ} (h : ids.getLast? = some t) :
    hash_input_id ids = some ((t * 314159) % (0xDEADBEEF : ℤ)).toNat := by
  unfold hash_input_id
  rw [h]

theorem gen_red_list_state_irrel {ids : List ℤ} {t : ℤ} (h : ids.getLast? = some t)
    (v : ℕ) (f : ℚ) (g g' : NpRandomState) :
    gen_red_list ids v f g = gen_red_list ids v f g' := by
  unfold gen_red_list
  rw [hash_input_id_getLast h]

theorem np_random_choice_ok {n : ℕ} {size : ℤ} (g : NpRandomState)
    (hn : 0 < n) (h0 : 0 ≤ size) (hle : size.toNat ≤ n) :
    (np_random_choice n size g).1
      = some (drawDistinct size.toNat (List.range n) g.state).1 := by
  have h1 : ¬ n = 0 := by omega
  have h2 : ¬ size < 0 := by omega
  have h3 : ¬ n < size.toNat := by omega
  simp only [np_random_choice, h1, h2, h3, if_false]

theorem pyInt_nonneg {q : ℚ} (h : 0 ≤ q) : pyInt q = ⌊q⌋ := by
  simp [pyInt, h]

/-! ## C1 -/

/-- **C1.**  (Amended: the quantification over `red_fraction` is restricted
to `0 ≤ red_fraction ≤ 1`; outside that range the underlying
`np.random.choice` raises, see the counterexample.)  For every token id,
every positive vocabulary size and every `red_fraction ∈ [0, 1]`,
`gen_red_list` succeeds and is deterministic — its output does not depend on
the ambient PRNG state, so two calls with identical arguments return the
identical set — and the returned list has exactly
`⌊red_fraction * vocab_size⌋` elements, contains no duplicates, and every
member lies in `[0, vocab_size)`; the PRNG is seeded with
`hash_input_id`, which maps the previous token `t` to
`(t * 314159) % 0xDEADBEEF`. -/
theorem gen_red_list_correct (ids : List ℤ) (t : ℤ) (v : ℕ) (f : ℚ)
    (g g' : NpRandomState) (hids : ids.getLast? = some t) (hv : 0 < v)
    (hf0 : 0 ≤ f) (hf1 : f ≤ 1) :
    ∃ l : List ℕ,
      (gen_red_list ids v f g).1 = some l ∧
      (gen_red_list ids v f g).1 = (gen_red_list ids v f g').1 ∧
      l.length = (⌊f * (v : ℚ)⌋).toNat ∧
      l.Nodup ∧
      (∀ x ∈ l, x < v) ∧
      hash_input_id ids = some ((t * 314159) % (0xDEADBEEF : ℤ)).toNat := by
  have hfv0 : (0 : ℚ) ≤ f * (v : ℚ) := by positivity
  have hfv1 : f * (v : ℚ) ≤ (v : ℚ) := by
    calc f * (v : ℚ) ≤ 1 * (v : ℚ) := by
          apply mul_le_mul_of_nonneg_right hf1
          exact_mod_cast Nat.zero_le v
      _ = (v : ℚ) := one_mul _
  have hfloor0 : 0 ≤ ⌊f * (v : ℚ)⌋ := Int.floor_nonneg.mpr hfv0
  have hfloorv : ⌊f * (v : ℚ)⌋ ≤ (v : ℤ) := by
    have := Int.floor_le_floor (α := ℚ) hfv1
    simpa using this
  have htoNat : (⌊f * (v : ℚ)⌋).toNat ≤ v := by omega
  have hpy : pyInt (f * (v : ℚ)) = ⌊f * (v : ℚ)⌋ := pyInt_nonneg hfv0
  have hseed := hash_input_id_getLast hids
  have hrange : (List.range v).length = v := List.length_range v
  set seed := ((t * 314159) % (0xDEADBEEF : ℤ)).toNat with hseeddef
  have hcall : (gen_red_list ids v f g).1
      = some (drawDistinct (⌊f * (v : ℚ)⌋).toNat (List.range v) (npSeedFn seed).state).1 := by
    simp only [gen_red_list, hseed, hpy]
    exact np_random_choice_ok (npSeedFn seed) hv hfloor0 htoNat
  refine ⟨_, hcall, ?_, ?_, ?_, ?_, hseed⟩
  · rw [gen_red_list_state_irrel hids v f g g']
  · exact drawDistinct_length _ _ _ (by rw [hrange]; exact htoNat)
  · exact drawDistinct_nodup _ _ _ (List.nodup_range v)
  · intro x hx
    exact List.mem_range.mp (drawDistinct_subset _ _ _ _ hx)

/-- **C1, witness.**  The theorem applied at token id 7, vocabulary size 10,
`red_fraction = 1/2` and two distinct ambient PRNG states. -/
theorem gen_red_list_correct_witness :
    ∃ l : List ℕ,
      (gen_red_list [7] 10 (1/2) ⟨0⟩).1 = some l ∧
      (gen_red_list [7] 10 (1/2) ⟨0⟩).1 = (gen_red_list [7] 10 (1/2) ⟨99⟩).1 ∧
      l.length = (⌊(1/2 : ℚ) * ((10 : ℕ) : ℚ)⌋).toNat ∧
      l.Nodup ∧
      (∀ x ∈ l, x < 10) ∧
      hash_input_id [7] = some (((7 : ℤ) * 314159) % (0xDEADBEEF : ℤ)).toNat :=
  gen_red_list_correct [7] 7 10 (1/2) ⟨0⟩ ⟨99⟩ (by decide) (by decide)
    (by norm_num) (by norm_num)

/-- **C1, counterexample to the claim as frozen.**  At `token_id = 0`,
`vocab_size = 1 > 0`, `red_fraction = 2`, the claim demands a returned set of
`⌊2 * 1⌋ = 2` elements, but `np.random.choice(1, size=2, replace=False)`
raises (cannot draw 2 distinct values from a population of 1): the call
returns no set at all. -/
theorem gen_red_list_counterexample :
    (gen_red_list [0] 1 2 ⟨0⟩).1 = none ∧ ⌊(2 : ℚ) * ((1 : ℕ) : ℚ)⌋ = 2 := by
  have h1 : (2 : ℚ) * ((1 : ℕ) : ℚ) = 2 := by norm_num
  have hh : hash_input_id [0] = some 0 := by decide
  constructor
  · simp only [gen_red_list, hh, h1]
    decide
  · rw [h1]
    decide

/-! ## C9 -/

/-- **C9.**  (Amended: `gen_red_list` **is** a deterministic, stateless
mapping in the sense that its result — both the returned list and the
resulting global numpy PRNG state — depends only on
`(token_id, vocab_size, red_fraction)` and not on the ambient random state;
but it does **not** leave the ambient state untouched: it reseeds the global
numpy PRNG on every call, a persistent random-state side effect shown in the
counterexample.) -/
theorem gen_red_list_pure_mapping (ids : List ℤ) (t : ℤ) (v : ℕ) (f : ℚ)
    (g g' : NpRandomState) (hids : ids.getLast? = some t) :
    gen_red_list ids v f g = gen_red_list ids v f g' :=
  gen_red_list_state_irrel hids v f g g'

/-- **C9, witness.**  The theorem applied at token id 1, vocabulary size 4,
`red_fraction = 1/2` and two distinct ambient PRNG states. -/
theorem gen_red_list_pure_mapping_witness :
    gen_red_list [1] 4 (1/2) ⟨0⟩ = gen_red_list [1] 4 (1/2) ⟨5⟩ :=
  gen_red_list_pure_mapping [1] 1 4 (1/2) ⟨0⟩ ⟨5⟩ (by decide)

/-- **C9, counterexample to the claim as frozen.**  `gen_red_list` does leave
an ambient random-state side effect: starting from global numpy PRNG state
`0`, a successful call (it returns a list) leaves the global state different
from `0` — the claim that it "leaves no ambient random state behind" fails. -/
theorem gen_red_list_side_effect_counterexample :
    (gen_red_list [1] 4 (1/2) ⟨0⟩).2 ≠ ⟨0⟩ ∧
    (gen_red_list [1] 4 (1/2) ⟨0⟩).1 ≠ none := by
  have h1 : (1/2 : ℚ) * ((4 : ℕ) : ℚ) = 2 := by norm_num
  have hh : hash_input_id [1] = some 314159 := by decide
  constructor
  · simp only [gen_red_list, hh, h1]
    decide
  · simp only [gen_red_list, hh, h1]
    decide

/-! ## Helper lemmas for `is_valid_student_id` -/

theorem matchLit_eq_some {lit : Char} {cs r : List Char} :
    matchLit lit cs = some r ↔ cs = lit :: r := by
  cases cs with
  | nil => simp [matchLit]
  | cons c cs' =>
    simp only [matchLit, List.cons.injEq]
    by_cases h : c = lit
    · simp [h]
    · simp [h]

theorem matchNDigits_eq_some {n : ℕ} :
    ∀ {cs r : List Char}, matchNDigits n cs = some r ↔
      ∃ ds, cs = ds ++ r ∧ ds.length = n ∧ ∀ c ∈ ds, c.isDigit := by
  induction n with
  | zero =>
    intro cs r
    simp only [matchNDigits, Option.some.injEq]
    constructor
    · rintro rfl
      exact ⟨[], rfl, rfl, by simp⟩
    · rintro ⟨ds, hcs, hlen, -⟩
      rw [List.length_eq_zero] at hlen
      subst hlen
      simpa using hcs
  | succ n ih =>
    intro cs r
    cases cs with
    | nil =>
      simp only [matchNDigits]
      constructor
      · intro h
        cases h
      · rintro ⟨ds, hcs, hlen, -⟩
        rw [eq_comm, List.append_eq_nil] at hcs
        obtain ⟨rfl, -⟩ := hcs
        simp at hlen
    | cons c cs' =>
      simp only [matchNDigits]
      by_cases hd : c.isDigit
      · rw [if_pos hd, ih]
        constructor
        · rintro ⟨ds, rfl, hlen, hds⟩
          refine ⟨c :: ds, rfl, by simp [hlen], ?_⟩
          intro x hx
          rcases List.mem_cons.mp hx with rfl | hx
          · exact hd
          · exact hds x hx
        · rintro ⟨ds, hcs, hlen, hds⟩
          cases ds with
          | nil => simp at hlen
          | cons d ds' =>
            simp only [List.cons_append, List.cons.injEq] at hcs
            obtain ⟨rfl, rfl⟩ := hcs
            refine ⟨ds', rfl, by simpa using hlen, ?_⟩
            intro x hx
            exact hds x (List.mem_cons_of_mem _ hx)
      · rw [if_neg hd]
        constructor
        · intro h
          cases h
        · rintro ⟨ds, hcs, hlen, hds⟩
          cases ds with
          | nil => simp at hlen
          | cons d ds' =>
            simp only [List.cons_append, List.cons.injEq] at hcs
            obtain ⟨rfl, -⟩ := hcs
            exact absurd (hds c (List.mem_cons_self c ds')) hd

theorem pyEndAnchor_iff {cs : List Char} :
    pyEndAnchor cs = true ↔ cs = [] ∨ cs = ['\n'] := by
  simp [pyEndAnchor, List.isEmpty_iff]

theorem reMatchStudentId_eq_some {cs r : List Char} :
    reMatchStudentId cs = some r ↔
      ∃ d1 d2 d3, cs = d1 ++ '-' :: (d2 ++ '-' :: (d3 ++ r)) ∧
        d1.length = 2 ∧ d2.length = 3 ∧ d3.length = 3 ∧
        (∀ c ∈ d1, c.isDigit) ∧ (∀ c ∈ d2, c.isDigit) ∧ (∀ c ∈ d3, c.isDigit) := by
  simp only [reMatchStudentId, Option.bind_eq_some, matchNDigits_eq_some,
    matchLit_eq_some]
  constructor
  · rintro ⟨r1, ⟨d1, rfl, h1len, h1d⟩, r2, rfl, r3, ⟨d2, rfl, h2len, h2d⟩, r4, rfl,
      d3, rfl, h3len, h3d⟩
    exact ⟨d1, d2, d3, rfl, h1len, h2len, h3len, h1d, h2d, h3d⟩
  · rintro ⟨d1, d2, d3, rfl, h1len, h2len, h3len, h1d, h2d, h3d⟩
    exact ⟨'-' :: (d2 ++ '-' :: (d3 ++ r)), ⟨d1, rfl, h1len, h1d⟩,
      d2 ++ '-' :: (d3 ++ r), rfl, '-' :: (d3 ++ r), ⟨d2, rfl, h2len, h2d⟩,
      d3 ++ r, rfl, d3, rfl, h3len, h3d⟩

/-! ## C2 -/

/-- **C2.**  (Amended twice, each forced by a divergence between the claim
and the program: (1) Python's `$` anchor also matches just before a single
terminating newline, so the pattern additionally accepts the well-formed ID
followed by exactly one `'\n'`; (2) Python's `\d` also matches non-ASCII
Unicode decimal digits, so the characterization is stated for ASCII strings,
the fragment on which the embedded matcher is faithful.)  For every ASCII
string, `is_valid_student_id` returns `true` if and only if the string
consists of two digits, a hyphen, three digits, a hyphen, and three digits,
followed by nothing or by exactly one newline character; no other
normalization is performed. -/
theorem is_valid_student_id_iff (s : String)
    (_hascii : ∀ c ∈ s.data, c.toNat ≤ 127) :
    is_valid_student_id s = true ↔
      ∃ d1 d2 d3 rest, s.data = d1 ++ '-' :: (d2 ++ '-' :: (d3 ++ rest)) ∧
        d1.length = 2 ∧ d2.length = 3 ∧ d3.length = 3 ∧
        (∀ c ∈ d1, c.isDigit) ∧ (∀ c ∈ d2, c.isDigit) ∧ (∀ c ∈ d3, c.isDigit) ∧
        (rest = [] ∨ rest = ['\n']) := by
  unfold is_valid_student_id
  cases hm : reMatchStudentId s.data with
  | none =>
    constructor
    · intro h
      cases h
    · rintro ⟨d1, d2, d3, rest, hcs, h1, h2, h3, hd1, hd2, hd3, hrest⟩
      have : reMatchStudentId s.data = some rest :=
        reMatchStudentId_eq_some.mpr ⟨d1, d2, d3, hcs, h1, h2, h3, hd1, hd2, hd3⟩
      rw [hm] at this
      cases this
  | some rest' =>
    obtain ⟨d1, d2, d3, hcs, h1, h2, h3, hd1, hd2, hd3⟩ :=
      reMatchStudentId_eq_some.mp hm
    constructor
    · intro hend
      exact ⟨d1, d2, d3, rest', hcs, h1, h2, h3, hd1, hd2, hd3,
        pyEndAnchor_iff.mp hend⟩
    · rintro ⟨e1, e2, e3, rest, hcs', g1, g2, g3, ge1, ge2, ge3, hrest⟩
      have : reMatchStudentId s.data = some rest :=
        reMatchStudentId_eq_some.mpr ⟨e1, e2, e3, hcs', g1, g2, g3, ge1, ge2, ge3⟩
      rw [hm] at this
      injection this with hr
      exact pyEndAnchor_iff.mpr (hr ▸ hrest)

/-- **C2, witness.**  The theorem applied at the ASCII string
`"12-345-678"`. -/
theorem is_valid_student_id_iff_witness :
    is_valid_student_id "12-345-678" = true ↔
      ∃ d1 d2 d3 rest, ("12-345-678" : String).data
          = d1 ++ '-' :: (d2 ++ '-' :: (d3 ++ rest)) ∧
        d1.length = 2 ∧ d2.length = 3 ∧ d3.length = 3 ∧
        (∀ c ∈ d1, c.isDigit) ∧ (∀ c ∈ d2, c.isDigit) ∧ (∀ c ∈ d3, c.isDigit) ∧
        (rest = [] ∨ rest = ['\n']) :=
  is_valid_student_id_iff "12-345-678" (by decide)

/-- **C2, counterexample to the claim as frozen.**  The claim demands that a
string with a trailing newline is rejected, but
`is_valid_student_id "12-345-678\n"` returns `true` (Python's `$` matches
before a terminating newline). -/
theorem is_valid_student_id_counterexample :
    is_valid_student_id "12-345-678\n" = true ∧
    is_valid_student_id "12-345-678" = true ∧
    is_valid_student_id "123-45-678" = false ∧
    is_valid_student_id "12-345-67" = false := by
  refine ⟨?_, ?_, ?_, ?_⟩ <;> decide

/-! ## Helper lemmas for `is_valid_token_urlsafe` -/

/-- Bytes emitted by `a2b_base64` while consuming `n` data characters
starting at quad position `q`. -/
def countBytes : ℕ → ℕ → ℕ
  | _, 0 => 0
  | q, n + 1 => (if q = 0 then 0 else 1) + countBytes ((q + 1) % 4) n

theorem b64CharVal_ascii {c : Char} (h : (b64CharVal c).isSome) : c.toNat ≤ 127 := by
  unfold b64CharVal at h
  split at h
  · omega
  split at h
  · omega
  split at h
  · omega
  split at h
  · next heq => subst heq; decide
  split at h
  · next heq => subst heq; decide
  · simp at h

theorem b64CharVal_pad : b64CharVal '=' = none := by decide

theorem a2b_base64_data (ds : List Char) :
    ∀ (rest : List Char) (q left : ℕ) (acc : List ℕ), q < 4 →
      (∀ c ∈ ds, (b64CharVal c).isSome) →
      ∃ left' acc',
        a2b_base64 (ds ++ rest) q left 0 acc
          = a2b_base64 rest ((q + ds.length) % 4) left' 0 acc' ∧
        acc'.length = acc.length + countBytes q ds.length := by
  induction ds with
  | nil =>
    intro rest q left acc hq _
    refine ⟨left, acc, ?_, by simp [countBytes]⟩
    simp [Nat.mod_eq_of_lt hq]
  | cons c ds ih =>
    intro rest q left acc hq hval
    have hc : (b64CharVal c).isSome := hval c (List.mem_cons_self c ds)
    obtain ⟨v, hv⟩ := Option.isSome_iff_exists.mp hc
    have hne : c ≠ '=' := by
      intro heq
      rw [heq, b64CharVal_pad] at hv
      cases hv
    have hval' : ∀ x ∈ ds, (b64CharVal x).isSome :=
      fun x hx => hval x (List.mem_cons_of_mem _ hx)
    interval_cases q
    · obtain ⟨left', acc', heq, hlen⟩ := ih rest 1 v acc (by omega) hval'
      refine ⟨left', acc', ?_, ?_⟩
      · rw [List.cons_append]
        simp only [a2b_base64, if_neg hne, hv]
        rw [heq]
        congr 1
        simp only [List.length_cons]
        omega
      · rw [hlen]
        simp [countBytes]
    · obtain ⟨left', acc', heq, hlen⟩ :=
        ih rest 2 (v % 16) (((left * 4) + v / 16) :: acc) (by omega) hval'
      refine ⟨left', acc', ?_, ?_⟩
      · rw [List.cons_append]
        simp only [a2b_base64, if_neg hne, hv]
        rw [heq]
        congr 1
        simp only [List.length_cons]
        omega
      · rw [hlen]
        simp [countBytes]
        omega
    · obtain ⟨left', acc', heq, hlen⟩ :=
        ih rest 3 (v % 4) (((left * 16) + v / 4) :: acc) (by omega) hval'
      refine ⟨left', acc', ?_, ?_⟩
      · rw [List.cons_append]
        simp only [a2b_base64, if_neg hne, hv]
        rw [heq]
        congr 1
        simp only [List.length_cons]
        omega
      · rw [hlen]
        simp [countBytes]
        omega
    · obtain ⟨left', acc', heq, hlen⟩ :=
        ih rest 0 0 (((left * 64) + v) :: acc) (by omega) hval'
      refine ⟨left', acc', ?_, ?_⟩
      · rw [List.cons_append]
        simp only [a2b_base64, if_neg hne, hv]
        rw [heq]
        congr 1
        simp only [List.length_cons]
        omega
      · rw [hlen]
        simp [countBytes]
        omega

/-- Decoding a string of valid data characters whose count is `≡ 3 (mod 4)`,
followed by one `'='`, succeeds and yields `countBytes 0 n` bytes. -/
theorem a2b_base64_chunk3 (ds : List Char) (hmod : ds.length % 4 = 3)
    (hval : ∀ c ∈ ds, (b64CharVal c).isSome) :
    ∃ l, a2b_base64 (ds ++ ['=']) 0 0 0 [] = some l ∧
      l.length = countBytes 0 ds.length := by
  obtain ⟨left', acc', heq, hlen⟩ := a2b_base64_data ds ['='] 0 0 [] (by omega) hval
  rw [Nat.zero_add, hmod] at heq
  refine ⟨acc'.reverse, ?_, by simpa using hlen⟩
  rw [heq]
  simp [a2b_base64]

/-- Decoding a string of valid data characters whose count is `≡ 2 (mod 4)`,
followed by two `'='`, succeeds and yields `countBytes 0 n` bytes. -/
theorem a2b_base64_chunk2 (ds : List Char) (hmod : ds.length % 4 = 2)
    (hval : ∀ c ∈ ds, (b64CharVal c).isSome) :
    ∃ l, a2b_base64 (ds ++ ['=', '=']) 0 0 0 [] = some l ∧
      l.length = countBytes 0 ds.length := by
  obtain ⟨left', acc', heq, hlen⟩ :=
    a2b_base64_data ds ['=', '='] 0 0 [] (by omega) hval
  rw [Nat.zero_add, hmod] at heq
  refine ⟨acc'.reverse, ?_, by simpa using hlen⟩
  rw [heq]
  simp [a2b_base64]

theorem b64decode_of_ascii {cs : List Char} (h : ∀ c ∈ cs, c.toNat ≤ 127) :
    b64decode cs = a2b_base64 cs 0 0 0 [] := by
  unfold b64decode
  rw [if_pos]
  rw [List.all_eq_true]
  intro c hc
  exact decide_eq_true (h c hc)

/-- The decoded byte count of a token consisting of `n` URL-safe alphabet
characters with `n % 4 = 3` (the shape of an unpadded base64url encoding of
`3k+2` bytes): the checker's padding plus lenient decode yields exactly
`countBytes 0 n` bytes. -/
theorem is_valid_token_urlsafe_mod3 {cs : List Char} (hmod : cs.length % 4 = 3)
    (hval : ∀ c ∈ cs, (b64CharVal (urlTr c)).isSome) (key_len : ℕ) :
    is_valid_token_urlsafe (String.mk cs) key_len
      = (countBytes 0 cs.length == key_len) := by
  have hpad : padToken cs = cs ++ [('=' : Char)] := by
    unfold padToken
    rw [if_pos (by omega)]
    have : 4 - cs.length % 4 = 1 := by omega
    rw [this]
    rfl
  have hurlpad : (padToken cs).map urlTr = cs.map urlTr ++ [('=' : Char)] := by
    rw [hpad, List.map_append]
    rfl
  have hvalmap : ∀ c ∈ cs.map urlTr, (b64CharVal c).isSome := by
    intro c hc
    obtain ⟨x, hx, rfl⟩ := List.mem_map.mp hc
    exact hval x hx
  have hascii : ∀ c ∈ cs.map urlTr ++ [('=' : Char)], c.toNat ≤ 127 := by
    intro c hc
    rcases List.mem_append.mp hc with hc | hc
    · exact b64CharVal_ascii (hvalmap c hc)
    · rw [List.mem_singleton.mp hc]
      decide
  obtain ⟨l, hl, hllen⟩ := a2b_base64_chunk3 (cs.map urlTr)
    (by rw [List.length_map]; exact hmod) hvalmap
  unfold is_valid_token_urlsafe
  rw [show (String.mk cs).data = cs from rfl, hurlpad, b64decode_of_ascii hascii,
    hl]
  show (l.length == key_len) = (countBytes 0 cs.length == key_len)
  rw [hllen, List.length_map]

/-- As above for `n % 4 = 2` (one character removed from an unpadded
base64url token). -/
theorem is_valid_token_urlsafe_mod2 {cs : List Char} (hmod : cs.length % 4 = 2)
    (hval : ∀ c ∈ cs, (b64CharVal (urlTr c)).isSome) (key_len : ℕ) :
    is_valid_token_urlsafe (String.mk cs) key_len
      = (countBytes 0 cs.length == key_len) := by
  have hpad : padToken cs = cs ++ [('=' : Char), '='] := by
    unfold padToken
    rw [if_pos (by omega)]
    have : 4 - cs.length % 4 = 2 := by omega
    rw [this]
    rfl
  have hurlpad : (padToken cs).map urlTr = cs.map urlTr ++ [('=' : Char), '='] := by
    rw [hpad, List.map_append]
    rfl
  have hvalmap : ∀ c ∈ cs.map urlTr, (b64CharVal c).isSome := by
    intro c hc
    obtain ⟨x, hx, rfl⟩ := List.mem_map.mp hc
    exact hval x hx
  have hascii : ∀ c ∈ cs.map urlTr ++ [('=' : Char), '='], c.toNat ≤ 127 := by
    intro c hc
    rcases List.mem_append.mp hc with hc | hc
    · exact b64CharVal_ascii (hvalmap c hc)
    · rcases List.mem_cons.mp hc with rfl | hc
      · decide
      · rw [List.mem_singleton.mp hc]
        decide
  obtain ⟨l, hl, hllen⟩ := a2b_base64_chunk2 (cs.map urlTr)
    (by rw [List.length_map]; exact hmod) hvalmap
  unfold is_valid_token_urlsafe
  rw [show (String.mk cs).data = cs from rfl, hurlpad, b64decode_of_ascii hascii,
    hl]
  show (l.length == key_len) = (countBytes 0 cs.length == key_len)
  rw [hllen, List.length_map]

/-! ## C3 -/

/-- **C3.**  (Amended: the clause "a token containing characters outside the
base64 alphabet is reported invalid" does not hold — the lenient decoder
discards such characters, see the counterexample; what holds is that the
check never raises, i.e. it is a total Boolean function, and that it accepts
a token exactly when the padded, translated string decodes to 50 bytes.)
Every token of 67 URL-safe base64 alphabet characters — the unpadded
base64url encoding shape of a 50-byte value — passes the Q2 key check, and
the same token with any one character removed fails. -/
theorem token_urlsafe_spec (cs : List Char) (hlen : cs.length = 67)
    (hval : ∀ c ∈ cs, (b64CharVal (urlTr c)).isSome) :
    is_valid_token_urlsafe (String.mk cs) 50 = true ∧
    ∀ i < 67, is_valid_token_urlsafe (String.mk (cs.eraseIdx i)) 50 = false := by
  constructor
  · rw [is_valid_token_urlsafe_mod3 (by omega) hval 50, hlen]
    decide
  · intro i hi
    have hlen' : (cs.eraseIdx i).length = 66 := by
      rw [List.length_eraseIdx, if_pos (by omega), hlen]
    have hval' : ∀ c ∈ cs.eraseIdx i, (b64CharVal (urlTr c)).isSome :=
      fun c hc => hval c ((List.eraseIdx_sublist cs i).subset hc)
    rw [is_valid_token_urlsafe_mod2 (by omega) hval' 50, hlen']
    decide

/-- **C3, witness.**  The theorem applied to the 67-character token
`"AAA…A"` (the unpadded base64url encoding of 50 zero bytes), and its
truncation by the first character. -/
theorem token_urlsafe_spec_witness :
    is_valid_token_urlsafe (String.mk (List.replicate 67 'A')) 50 = true ∧
    is_valid_token_urlsafe (String.mk ((List.replicate 67 'A').eraseIdx 0)) 50
      = false := by
  obtain ⟨h1, h2⟩ := token_urlsafe_spec (List.replicate 67 'A') (by decide)
    (by decide)
  exact ⟨h1, h2 0 (by decide)⟩

/-- **C3, counterexample to the claim as frozen.**  A token containing two
`'!'` characters — which are outside the base64 alphabet both before and
after URL-safe translation — is *accepted* by the key check: `b64decode`'s
lenient mode silently discards them, and the surviving 67 characters plus
the appended padding decode to exactly 50 bytes.  The claim that such a
token "is reported invalid" fails. -/
theorem token_urlsafe_counterexample :
    b64CharVal '!' = none ∧ urlTr '!' = '!' ∧
    ('!' ∈ (List.replicate 67 'A' ++ ['!', '!'])) ∧
    is_valid_token_urlsafe (String.mk (List.replicate 67 'A' ++ ['!', '!'])) 50
      = true := by
  refine ⟨by decide, by decide, ?_, by decide⟩
  simp

/-! ## C4 -/

/-- **C4.**  When the `Q1_gens.npy` block does not raise, `check_q1` examines
a present `Q1_guesses.npy` in the order dtype → value-range → shape: a
non-integer dtype fails with the dtype violation no matter what the data or
shape are, and an integer array with an element outside `[1, 4]` fails with
the value-range violation no matter what its shape is — in particular when
the shape is simultaneously wrong. -/
theorem check_q1_order (sub : Submission) (g : NpArray)
    (hgens : ∃ w, check_q1_gens sub = .ok w)
    (hpresent : sub.q1_guesses = some g) :
    (g.dtype ≠ .intDtype →
      check_q1 sub = .error (.invalidSubmission
        ("Q1_guesses.npy should contain integers only, got "
          ++ dtypeName g.dtype ++ "."))) ∧
    (g.dtype = .intDtype → (∃ v ∈ g.intData, v < 1 ∨ 4 < v) →
      check_q1 sub = .error (.invalidSubmission
        "Q1_guesses.npy should contain integers between 1 and 4 (both inclusive) only.")) := by
  obtain ⟨w, hw⟩ := hgens
  constructor
  · intro hdtype
    simp only [check_q1, hw, check_q1_guesses, hpresent]
    rw [if_pos hdtype]
  · intro hdtype hout
    obtain ⟨v, hv, hvout⟩ := hout
    have hrange : ¬ ((g.intData.all fun v => decide (1 ≤ v)) = true ∧
        (g.intData.all fun v => decide (v ≤ 4)) = true) := by
      rintro ⟨h1, h2⟩
      rw [List.all_eq_true] at h1 h2
      have g1 := h1 v hv
      have g2 := h2 v hv
      simp only [decide_eq_true_eq] at g1 g2
      omega
    simp only [check_q1, hw, check_q1_guesses, hpresent]
    rw [if_neg (by simp [hdtype]), if_pos hrange]

/-- **C4, witness.**  The theorem applied to a submission whose
`Q1_guesses.npy` is an integer array of the wrong shape `(79,)` containing
the out-of-range value 5: the reported failure is the value-range one. -/
theorem check_q1_order_witness :
    check_q1 ⟨none, some ⟨.intDtype, [79], [5]⟩, none, false, false, none, none,
        none, true⟩
      = .error (.invalidSubmission
        "Q1_guesses.npy should contain integers between 1 and 4 (both inclusive) only.") :=
  (check_q1_order
      ⟨none, some ⟨.intDtype, [79], [5]⟩, none, false, false, none, none,
        none, true⟩
      ⟨.intDtype, [79], [5]⟩ ⟨_, rfl⟩ rfl).2 rfl
    ⟨5, by decide, by decide⟩

/-! ## C6 -/

/-- **C6.**  For every submission archive (whatever the state of the Q1, Q2
and Q3 artifacts — including states on which the question checks would
themselves raise), if `declaration_originality.pdf` is absent from the
resolved root, `check_submission` fails with the declaration error before any
question check runs, and there is no mode in which this is a warning. -/
theorem check_submission_declaration (zp : String) (a : Archive)
    (hdecl : (resolveRoot a).declaration = false) :
    check_submission true zp a = .error (.invalidSubmission
      "declaration_originality.pdf not found in the submission.") := by
  unfold check_submission
  rw [if_neg (by simp)]
  rw [if_pos (by simp [hdecl])]

/-- **C6, witness.**  The theorem applied to an archive whose submission
would also fail `check_q1` (a float-dtype `Q1_gens.npy`): the declaration
error is still what is reported. -/
theorem check_submission_declaration_witness :
    check_submission true "llm_assignment_3_submission-12-345-678.zip"
      ⟨⟨some ⟨.floatDtype, [3], []⟩, none, none, false, false, none, none,
          none, false⟩, none⟩
      = .error (.invalidSubmission
        "declaration_originality.pdf not found in the submission.") :=
  check_submission_declaration _ _ rfl

/-! ## C8 -/

/-- **C8** (the code contradicts the claim; the claim matches the intent).
A submission whose `Q1_gens.npy` is present with integer (non-string) dtype
fails, but the error message names `Q1_guesses.npy` instead of the offending
file `Q1_gens.npy`: the `f`-string of the dtype check in the `Q1_gens.npy`
block interpolates `Q1_GUESSES_FILENAME`. -/
theorem check_q1_gens_message_bug :
    check_q1 ⟨some ⟨.intDtype, [60], []⟩, none, none, false, false, none, none,
        none, true⟩
      = .error (.invalidSubmission
        "Q1_guesses.npy should contain strings only, got int64.") := by
  rfl

/-! ## C7 -/

theorem check_q2_array_ok_iff (file : String) {a : NpArray} {n : ℕ} {r : List ℕ}
    (hs : a.shape = n :: r) :
    (∃ w, check_q2_array file (some a) = .ok w) ↔
      (a.dtype = .intDtype ∧ n ≤ 140) := by
  simp only [check_q2_array]
  by_cases hd : a.dtype = .intDtype
  · rw [if_neg (by simp [hd])]
    simp only [hs]
    by_cases hn : n > 140
    · rw [if_pos hn]
      constructor
      · rintro ⟨w, hw⟩
        cases hw
      · rintro ⟨-, h⟩
        omega
    · rw [if_neg hn]
      exact ⟨fun _ => ⟨hd, by omega⟩, fun _ => ⟨[], rfl⟩⟩
  · rw [if_pos (by simp [hd])]
    constructor
    · rintro ⟨w, hw⟩
      cases hw
    · rintro ⟨h, -⟩
      exact absurd h hd

/-- **C7.**  (Amended: the code compares `array.shape[0]`, the *first
dimension*, with 140 — not the element count.)  When the Q2 key and code-file
checks pass, and `Q2_pvalue.npy` and `Q2_bool.npy` are present with at least
one dimension, `check_q2` succeeds if and only if both arrays have integer
dtype and a first dimension of at most 140; the element count is not what is
bounded (see the counterexample, where a `(2, 100)` array of 200 elements
passes). -/
theorem check_q2_arrays_ok_iff (sub : Submission) (k : String) (a b : NpArray)
    (na nb : ℕ) (ra rb : List ℕ)
    (hkey : sub.q2_key = some k)
    (htok : is_valid_token_urlsafe (pyStrip k) 50 = true)
    (hpy : sub.q2_code_py = true) (hipynb : sub.q2_code_ipynb = false)
    (hpv : sub.q2_pvalue = some a) (hbool : sub.q2_bool = some b)
    (hsa : a.shape = na :: ra) (hsb : b.shape = nb :: rb) :
    (∃ w, check_q2 sub = .ok w) ↔
      (a.dtype = .intDtype ∧ na ≤ 140 ∧ b.dtype = .intDtype ∧ nb ≤ 140) := by
  have hiffA := check_q2_array_ok_iff "Q2_pvalue.npy" hsa
  have hiffB := check_q2_array_ok_iff "Q2_bool.npy" hsb
  simp only [check_q2, hkey, hpv, hbool]
  rw [if_neg (by simp [htok]), if_neg (by simp [hipynb]), if_neg (by simp [hpy])]
  cases hA : check_q2_array "Q2_pvalue.npy" (some a) with
  | error e =>
    constructor
    · rintro ⟨w, hw⟩
      cases hw
    · rintro ⟨hda, hna, -, -⟩
      obtain ⟨w, hw⟩ := hiffA.mpr ⟨hda, hna⟩
      rw [hA] at hw
      cases hw
  | ok w1 =>
    cases hB : check_q2_array "Q2_bool.npy" (some b) with
    | error e =>
      constructor
      · rintro ⟨w, hw⟩
        cases hw
      · rintro ⟨-, -, hdb, hnb⟩
        obtain ⟨w, hw⟩ := hiffB.mpr ⟨hdb, hnb⟩
        rw [hB] at hw
        cases hw
    | ok w2 =>
      constructor
      · intro _
        obtain ⟨hda, hna⟩ := hiffA.mp ⟨w1, hA⟩
        obtain ⟨hdb, hnb⟩ := hiffB.mp ⟨w2, hB⟩
        exact ⟨hda, hna, hdb, hnb⟩
      · intro _
        exact ⟨w1 ++ w2, rfl⟩

/-- **C7, witness.**  The theorem applied to a submission with a valid
67-character key token, `Q2_code.py` present, and two integer arrays of first
dimension at most 140: the check succeeds. -/
theorem check_q2_arrays_ok_iff_witness :
    ∃ w, check_q2 ⟨none, none, some (String.mk (List.replicate 67 'A')), true,
        false, some ⟨.intDtype, [140], []⟩, some ⟨.intDtype, [100], []⟩, none,
        true⟩ = .ok w :=
  (check_q2_arrays_ok_iff _ (String.mk (List.replicate 67 'A'))
      ⟨.intDtype, [140], []⟩ ⟨.intDtype, [100], []⟩ 140 100 [] []
      rfl (by decide) rfl rfl rfl rfl rfl rfl).mpr
    ⟨rfl, by omega, rfl, by omega⟩

/-- **C7, counterexample to the claim as frozen.**  A present integer array
of shape `(2, 100)` has `200 > 140` elements, so the claim demands failure —
but `check_q2` passes it, because the code bounds only `shape[0] = 2`. -/
theorem check_q2_shape_counterexample :
    (2 * 100 > 140) ∧
    check_q2 ⟨none, none, some (String.mk (List.replicate 67 'A')), true, false,
        some ⟨.intDtype, [2, 100], List.replicate 200 1⟩,
        some ⟨.intDtype, [2, 100], List.replicate 200 1⟩, none, true⟩
      = .ok [] := by
  constructor
  · omega
  · rfl

/-! ## Helper lemmas for the safety checker -/

theorem forward_flags_eq (CE IE IM : List (List ℚ)) :
    (forward CE IE IM).2 = (cosine_similarity IE CE).map (fun row =>
      (List.range ((cosine_similarity IE CE).headD []).length).any fun j =>
        decide ((28 / 100 : ℚ) < pyRound3 (row.getD j 0))) := rfl

theorem forward_images_eq (CE IE IM : List (List ℚ)) :
    (forward CE IE IM).1 = IM.mapIdx fun idx img =>
      if (forward CE IE IM).2.getD idx false then
        List.replicate img.length (0 : ℚ)
      else img := rfl

theorem roundHalfEven_le_of_le {q : ℚ} {n : ℤ} (h : q ≤ (n : ℚ)) :
    roundHalfEven q ≤ n := by
  have hfloor : ⌊q⌋ ≤ n := by
    have := Int.floor_le_floor h
    rwa [Int.floor_intCast] at this
  have hne : Int.fract q > 0 → ⌊q⌋ ≠ n := by
    intro hpos he
    have : Int.fract q = q - (n : ℚ) := by
      rw [Int.fract, he]
    rw [this] at hpos
    linarith
  unfold roundHalfEven
  split_ifs with h1 h2 h3
  · exact hfloor
  · have := hne (by linarith)
    omega
  · exact hfloor
  · have hhalf : Int.fract q = 1 / 2 := by linarith
    have := hne (by rw [hhalf]; norm_num)
    omega

theorem pyRound3_le_028 {x : ℚ} (h : x ≤ 28 / 100) : pyRound3 x ≤ 28 / 100 := by
  have h1 : x * 1000 ≤ ((280 : ℤ) : ℚ) := by push_cast; linarith
  have h2 : roundHalfEven (x * 1000) ≤ 280 := roundHalfEven_le_of_le h1
  unfold pyRound3
  rw [div_le_iff₀ (by norm_num)]
  calc (roundHalfEven (x * 1000) : ℚ) ≤ ((280 : ℤ) : ℚ) := by exact_mod_cast h2
    _ = 28 / 100 * 1000 := by norm_num

theorem forward_flags_getD (CE IE IM : List (List ℚ)) (i : ℕ)
    (hi : i < IE.length) :
    (forward CE IE IM).2.getD i false
      = (List.range ((cosine_similarity IE CE).headD []).length).any fun j =>
          decide ((28 / 100 : ℚ) < pyRound3
            (((cosine_similarity IE CE).getD i []).getD j 0)) := by
  have hisim : i < (cosine_similarity IE CE).length := by
    rw [cosine_similarity, List.length_map]
    exact hi
  rw [forward_flags_eq]
  rw [List.getD_eq_getElem?_getD, List.getElem?_eq_getElem
    (by rwa [List.length_map]), Option.getD_some, List.getElem_map]
  rw [List.getD_eq_getElem?_getD (l := cosine_similarity IE CE),
    List.getElem?_eq_getElem hisim, Option.getD_some]

theorem forward_images_getD (CE IE IM : List (List ℚ)) (i : ℕ)
    (hi : i < IM.length) :
    (forward CE IE IM).1.getD i []
      = if (forward CE IE IM).2.getD i false then
          List.replicate ((IM.getD i []).length) (0 : ℚ)
        else IM.getD i [] := by
  have hmi : i < (List.mapIdx (fun idx img =>
      if (forward CE IE IM).2.getD idx false then
        List.replicate img.length (0 : ℚ)
      else img) IM).length := by
    rw [List.length_mapIdx]
    exact hi
  have hIM : IM.getD i [] = IM[i] := by
    rw [List.getD_eq_getElem?_getD, List.getElem?_eq_getElem hi, Option.getD_some]
  conv_lhs => rw [forward_images_eq]
  rw [List.getD_eq_getElem?_getD, List.getElem?_eq_getElem hmi, Option.getD_some,
    List.getElem_mapIdx, hIM]

theorem forward_getD_out_of_range (CE IE IM : List (List ℚ)) (i : ℕ)
    (hi : IM.length ≤ i) :
    (forward CE IE IM).1.getD i [] = [] := by
  rw [forward_images_eq, List.getD_eq_getElem?_getD,
    List.getElem?_eq_none (by rwa [List.length_mapIdx])]
  rfl

theorem forward_flag_zeroes (CE IE IM : List (List ℚ)) (i : ℕ)
    (hflag : (forward CE IE IM).2.getD i false = true) :
    (forward CE IE IM).1.getD i []
      = List.replicate ((IM.getD i []).length) (0 : ℚ) := by
  by_cases hi : i < IM.length
  · rw [forward_images_getD CE IE IM i hi, if_pos hflag]
  · push_neg at hi
    rw [forward_getD_out_of_range CE IE IM i hi]
    rw [List.getD_eq_getElem?_getD, List.getElem?_eq_none hi]
    rfl

/-! ## C5 -/

/-- **C5.**  (Amended: the flagging condition compares the per-concept score
**rounded to 3 decimal places** with the threshold, because the code tests
`round(concept_cos, 3) > 0.28`; an unrounded similarity may exceed `0.28`
while its rounding does not, see the counterexample.)  For every image `i` of
an index-aligned batch: the returned flag is `true` iff some concept's
rounded cosine similarity exceeds `0.28`; a flagged image is replaced in the
returned batch by an all-zero image of identical shape; an unflagged image is
returned unmodified; and — the true half of the original claim — if every
(unrounded) similarity of the image is at most `0.28`, the image is not
flagged. -/
theorem safety_checker_forward_spec (CE IE IM : List (List ℚ))
    (hlen : IE.length = IM.length) (i : ℕ) (hi : i < IM.length) :
    ((forward CE IE IM).2.getD i false = true ↔
      ∃ j < ((cosine_similarity IE CE).headD []).length,
        (28 / 100 : ℚ) < pyRound3 (((cosine_similarity IE CE).getD i []).getD j 0)) ∧
    ((forward CE IE IM).2.getD i false = true →
      (forward CE IE IM).1.getD i []
        = List.replicate ((IM.getD i []).length) (0 : ℚ)) ∧
    ((forward CE IE IM).2.getD i false = false →
      (forward CE IE IM).1.getD i [] = IM.getD i []) ∧
    ((∀ j, ((cosine_similarity IE CE).getD i []).getD j 0 ≤ 28 / 100) →
      (forward CE IE IM).2.getD i false = false) ∧
    (forward CE IE IM).1.length = IM.length := by
  have hie : i < IE.length := by omega
  have hflag := forward_flags_getD CE IE IM i hie
  refine ⟨?_, ?_, ?_, ?_, ?_⟩
  · rw [hflag]
    simp only [List.any_eq_true, List.mem_range, decide_eq_true_eq]
  · intro h
    exact forward_flag_zeroes CE IE IM i h
  · intro h
    rw [forward_images_getD CE IE IM i hi, h]
    rfl
  · intro hle
    rw [hflag, List.any_eq_false]
    intro j _
    simp only [decide_eq_true_eq]
    intro hgt
    have := pyRound3_le_028 (hle j)
    linarith
  · rw [forward_images_eq, List.length_mapIdx]

/-- **C5, witness.**  The theorem applied to a one-image, one-concept batch
whose similarity is `1 > 0.28` (rounding to `1`), so the image is flagged and
zeroed: the hypotheses are discharged at `IE = [[1]]`, `CE = [[1]]`,
`IM = [[5]]`. -/
theorem safety_checker_forward_spec_witness :
    ((forward [[(1 : ℚ)]] [[(1 : ℚ)]] [[(5 : ℚ)]]).2.getD 0 false = true ↔
      ∃ j < ((cosine_similarity [[(1 : ℚ)]] [[(1 : ℚ)]]).headD []).length,
        (28 / 100 : ℚ) < pyRound3
          (((cosine_similarity [[(1 : ℚ)]] [[(1 : ℚ)]]).getD 0 []).getD j 0)) ∧
    ((forward [[(1 : ℚ)]] [[(1 : ℚ)]] [[(5 : ℚ)]]).2.getD 0 false = true →
      (forward [[(1 : ℚ)]] [[(1 : ℚ)]] [[(5 : ℚ)]]).1.getD 0 []
        = List.replicate ((([[(5 : ℚ)]] : List (List ℚ)).getD 0 []).length) (0 : ℚ)) ∧
    ((forward [[(1 : ℚ)]] [[(1 : ℚ)]] [[(5 : ℚ)]]).2.getD 0 false = false →
      (forward [[(1 : ℚ)]] [[(1 : ℚ)]] [[(5 : ℚ)]]).1.getD 0 []
        = ([[(5 : ℚ)]] : List (List ℚ)).getD 0 []) ∧
    ((∀ j, ((cosine_similarity [[(1 : ℚ)]] [[(1 : ℚ)]]).getD 0 []).getD j 0
        ≤ 28 / 100) →
      (forward [[(1 : ℚ)]] [[(1 : ℚ)]] [[(5 : ℚ)]]).2.getD 0 false = false) ∧
    (forward [[(1 : ℚ)]] [[(1 : ℚ)]] [[(5 : ℚ)]]).1.length
      = ([[(5 : ℚ)]] : List (List ℚ)).length :=
  safety_checker_forward_spec [[(1 : ℚ)]] [[(1 : ℚ)]] [[(5 : ℚ)]] rfl 0
    (by decide)

/-- **C5, counterexample to the claim as frozen.**  One image, one bad
concept, cosine similarity `0.2804 > 0.28`: the claim demands the image be
flagged and zeroed, but the code rounds the score to three decimals first —
`round(0.2804, 3) = 0.28`, which is not `> 0.28` — so the image is returned
unmodified with flag `false`. -/
theorem safety_checker_counterexample :
    (28 / 100 : ℚ) < 701 / 2500 ∧
    cosine_similarity [[(1 : ℚ)]] [[(701 / 2500 : ℚ)]] = [[(701 / 2500 : ℚ)]] ∧
    forward [[(701 / 2500 : ℚ)]] [[(1 : ℚ)]] [[(5 : ℚ)]] = ([[(5 : ℚ)]], [false]) := by
  have hdot : dot [(1 : ℚ)] [(701 / 2500 : ℚ)] = 701 / 2500 := by
    simp [dot]
  have hsim : cosine_similarity [[(1 : ℚ)]] [[(701 / 2500 : ℚ)]]
      = [[(701 / 2500 : ℚ)]] := by
    simp [cosine_similarity, hdot]
  have hq : (701 / 2500 : ℚ) * 1000 = 1402 / 5 := by norm_num
  have hfl : ⌊(1402 / 5 : ℚ)⌋ = 280 := by
    rw [Int.floor_eq_iff]
    constructor <;> norm_num
  have hfr : Int.fract (1402 / 5 : ℚ) = 2 / 5 := by
    rw [Int.fract, hfl]
    norm_num
  have hround : roundHalfEven ((701 / 2500 : ℚ) * 1000) = 280 := by
    rw [hq]
    unfold roundHalfEven
    rw [if_pos (by rw [hfr]; norm_num)]
    exact hfl
  have hpy : pyRound3 (701 / 2500 : ℚ) = 28 / 100 := by
    unfold pyRound3
    rw [hround]
    norm_num
  have hnot : ¬ ((28 / 100 : ℚ) < pyRound3 (701 / 2500 : ℚ)) := by
    rw [hpy]
    exact lt_irrefl _
  have hdec : decide ((28 / 100 : ℚ) < pyRound3 (701 / 2500 : ℚ)) = false :=
    decide_eq_false hnot
  refine ⟨by norm_num, hsim, ?_⟩
  simp [forward, hsim, hdec]
  exact le_of_eq hpy

/-! ## C10 -/

/-- **C10.**  The safety checker's evaluation writes through the caller's
reference: the returned batch reference is the very reference the caller
passed, the store slot behind that reference now holds the redacted batch,
and for every flagged image the pixel data readable through the caller's
reference is the all-zero image of the original shape — the caller's original
batch object no longer contains the flagged images' pixels. -/
theorem forward_inplace_spec (CE IE : List (List ℚ)) (store : ImageStore)
    (ref : ℕ) (href : ref < store.length) :
    (forward_inplace CE IE store ref).2.1 = ref ∧
    (forward_inplace CE IE store ref).1.getD ref []
      = (forward CE IE (store.getD ref [])).1 ∧
    (forward_inplace CE IE store ref).2.2
      = (forward CE IE (store.getD ref [])).2 ∧
    ∀ i, (forward_inplace CE IE store ref).2.2.getD i false = true →
      ((forward_inplace CE IE store ref).1.getD ref []).getD i []
        = List.replicate ((((store.getD ref []).getD i [])).length) (0 : ℚ) := by
  have hset : (forward_inplace CE IE store ref).1.getD ref []
      = (forward CE IE (store.getD ref [])).1 := by
    show ((store.set ref _).getD ref []) = _
    rw [List.getD_eq_getElem?_getD, List.getElem?_eq_getElem
      (by rw [List.length_set]; exact href), Option.getD_some,
      List.getElem_set_self]
  refine ⟨rfl, hset, rfl, ?_⟩
  intro i hflag
  rw [hset]
  exact forward_flag_zeroes CE IE (store.getD ref []) i hflag

/-- **C10, witness.**  The theorem applied to a store holding one batch of
one single-pixel image, with a concept embedding of similarity `1`. -/
theorem forward_inplace_spec_witness :
    (forward_inplace [[(1 : ℚ)]] [[(1 : ℚ)]] [[[ (5 : ℚ) ]]] 0).2.1 = 0 ∧
    (forward_inplace [[(1 : ℚ)]] [[(1 : ℚ)]] [[[ (5 : ℚ) ]]] 0).1.getD 0 []
      = (forward [[(1 : ℚ)]] [[(1 : ℚ)]]
          (([[[ (5 : ℚ) ]]] : ImageStore).getD 0 [])).1 ∧
    (forward_inplace [[(1 : ℚ)]] [[(1 : ℚ)]] [[[ (5 : ℚ) ]]] 0).2.2
      = (forward [[(1 : ℚ)]] [[(1 : ℚ)]]
          (([[[ (5 : ℚ) ]]] : ImageStore).getD 0 [])).2 ∧
    ∀ i, (forward_inplace [[(1 : ℚ)]] [[(1 : ℚ)]] [[[ (5 : ℚ) ]]] 0).2.2.getD i
        false = true →
      ((forward_inplace [[(1 : ℚ)]] [[(1 : ℚ)]] [[[ (5 : ℚ) ]]] 0).1.getD 0 []).getD
          i []
        = List.replicate
            (((([[[ (5 : ℚ) ]]] : ImageStore).getD 0 []).getD i []).length)
            (0 : ℚ) :=
  forward_inplace_spec [[(1 : ℚ)]] [[(1 : ℚ)]] [[[ (5 : ℚ) ]]] 0 (by decide)

end LlmLab
